import Mathlib

/-!
Verification of the whale-tracker trade classification and delivery pipeline.

The definitions below are a shallow embedding of the repository's code:
* `TransactionParser.parse_transaction` (src/parser.py) — aggregation of the
  three balance-signal sources, BUY/SELL classification, input-asset
  resolution, USD valuation and the final validation gate.  Python `Decimal`
  and `float` arithmetic is modelled by exact rationals (`ℚ`); the rejection
  sites that return `None` in Python are tagged with an explicit
  `RejectReason` so the individual rejection branches can be reasoned about.
  The external metadata fetch (`_get_token_metadata`) only decorates the
  result with a symbol/market-cap string and is not modelled; the SOL price
  is a parameter of `parse_transaction`.
* `TransactionParser._get_sol_price` (src/parser.py) — the price-oracle
  cache, with the external fetch outcome passed as a parameter
  (`Option ℚ`: `some p` = fetch succeeded with price `p`, `none` = fetch
  raised).  Python truthiness of the cached float (`if cache and ...`,
  `cache or 200.0`) is modelled exactly: a cached `0.0` is falsy.
* `MultiChatWhaleBot.process_transaction` (src/whale_bot.py) — the per-chat
  delivery loop over the whale entries, with the dedup store
  (`is_tx_processed` / `mark_tx_processed`, src/db_manager.py) modelled as a
  list of `(chat_id, signature)` pairs and the Telegram send outcome as a
  function `chatId → Bool`.
-/

namespace WhaleTracker

/-- Decidable equality of `Except` results, so concrete runs of the parser
can be checked by `decide`. -/
instance {ε α : Type} [DecidableEq ε] [DecidableEq α] :
    DecidableEq (Except ε α) := fun x y =>
  match x, y with
  | Except.error a, Except.error b =>
      if h : a = b then isTrue (by rw [h])
      else isFalse (by intro hh; cases hh; exact h rfl)
  | Except.error _, Except.ok _ => isFalse (by intro hh; cases hh)
  | Except.ok _, Except.error _ => isFalse (by intro hh; cases hh)
  | Except.ok a, Except.ok b =>
      if h : a = b then isTrue (by rw [h])
      else isFalse (by intro hh; cases hh; exact h rfl)

/-!
The standard `Rat` field operations are `@[irreducible]` in this toolchain,
so the kernel cannot evaluate them on concrete inputs.  The embedding
therefore uses the following kernel-computable equivalents, each proved
equal to the corresponding standard operation (`radd_eq` etc.), so that
concrete runs of the pipeline can be certified by `decide` while general
theorems reason with the ordinary `+`, `-`, `*`, `/` after rewriting. -/

/-- Kernel-computable addition on `ℚ`. -/
def radd (a b : ℚ) : ℚ := Rat.divInt (a.num * b.den + b.num * a.den) (a.den * b.den)

/-- Kernel-computable subtraction on `ℚ`. -/
def rsub (a b : ℚ) : ℚ := radd a (-b)

/-- Kernel-computable multiplication on `ℚ`. -/
def rmul (a b : ℚ) : ℚ := Rat.divInt (a.num * b.num) (a.den * b.den)

/-- Kernel-computable division on `ℚ`. -/
def rdiv (a b : ℚ) : ℚ := Rat.divInt (a.num * b.den) (a.den * b.num)

theorem radd_eq (a b : ℚ) : radd a b = a + b := by
  rw [radd]
  conv_rhs => rw [← Rat.num_divInt_den a, ← Rat.num_divInt_den b]
  rw [Rat.divInt_add_divInt _ _ (by exact_mod_cast a.den_nz)
    (by exact_mod_cast b.den_nz)]

theorem rsub_eq (a b : ℚ) : rsub a b = a - b := by
  rw [rsub, radd_eq, sub_eq_add_neg]

theorem rmul_eq (a b : ℚ) : rmul a b = a * b := by
  rw [rmul]
  conv_rhs => rw [← Rat.num_divInt_den a, ← Rat.num_divInt_den b]
  rw [Rat.divInt_mul_divInt _ _ (by exact_mod_cast a.den_nz)
    (by exact_mod_cast b.den_nz)]

theorem rdiv_eq (a b : ℚ) : rdiv a b = a / b := by
  rw [rdiv]
  conv_rhs => rw [← Rat.num_divInt_den a, ← Rat.num_divInt_den b]
  rw [Rat.divInt_div_divInt]

/-- Python's `abs` on `Decimal`, written so that the kernel can evaluate it
on concrete rationals. -/
def rabs (q : ℚ) : ℚ := if q < 0 then -q else q

theorem rabs_eq_abs (q : ℚ) : rabs q = |q| := by
  unfold rabs
  by_cases h : q < 0
  · simp [h, abs_of_neg h]
  · simp [h, abs_of_nonneg (le_of_not_lt h)]

/-- Mint address of (wrapped) SOL (src/parser.py line 18). -/
def SOL_MINT : String := "So11111111111111111111111111111111111111112"

/-- Mint address of wrapped SOL, the same string as `SOL_MINT`
(src/parser.py line 19). -/
def WSOL_MINT : String := "So11111111111111111111111111111111111111112"

/-- Mint address of USDC (src/parser.py line 20). -/
def USDC_MINT : String := "EPjFWdd5AufqSSqeM2qN1xzybapC8G4wEGGkZwyTDt1v"

/-- Mint address of USDT (src/parser.py line 21). -/
def USDT_MINT : String := "Es9vMFrzaCERmJfrF4H2FYD4KCoNkY11McCe8BenwNYB"

/-- Lamports per SOL (src/parser.py line 23). -/
def LAMPORTS_PER_SOL : ℚ := 1000000000

/-- Dust threshold in SOL units (src/parser.py line 24). -/
def DUST_THRESHOLD_SOL : ℚ := Rat.divInt 1 100

/-- Minimum USD value of an alert (src/parser.py line 25). -/
def MIN_USD_VALUE : ℚ := 1

/-- One entry of the raw event's `tokenTransfers` list. -/
structure TokenTransfer where
  fromUserAccount : String
  toUserAccount : String
  mint : String
  tokenAmount : ℚ
  decimals : ℕ
deriving DecidableEq, Repr

/-- One entry of the raw event's `nativeTransfers` list; `amount` is in
lamports. -/
structure NativeTransfer where
  fromUserAccount : String
  toUserAccount : String
  amount : ℤ
deriving DecidableEq, Repr

/-- One entry of the raw event's `accountData` list; `nativeBalanceChange`
is in lamports. -/
structure AccountData where
  account : String
  nativeBalanceChange : ℤ
deriving DecidableEq, Repr

/-- The raw Helius webhook event, restricted to the fields
`parse_transaction` reads.  `signature` is `none` when the key is absent;
`transactionError` and `err` record the Python truthiness of those fields. -/
structure TxData where
  signature : Option String
  transactionError : Bool
  err : Bool
  tokenTransfers : List TokenTransfer
  nativeTransfers : List NativeTransfer
  accountData : List AccountData
  timestamp : ℤ
deriving DecidableEq, Repr

/-- Python truthiness of the `signature` field: absent and the empty string
are falsy (src/parser.py lines 137-139). -/
def sigTruthy : Option String → Bool
  | none => false
  | some s => s ≠ ""

/-- A generic (non-SOL, non-stablecoin) token movement collected in
`whale_movements['tokens']` (src/parser.py lines 179-183). -/
structure TokenDelta where
  mint : String
  amount : ℚ
  decimals : ℕ
deriving DecidableEq, Repr

/-- The `whale_movements` accumulator of STEP 1
(src/parser.py lines 151-156). -/
structure Movements where
  sol : ℚ
  usdc : ℚ
  usdt : ℚ
  tokens : List TokenDelta
deriving DecidableEq, Repr

/-- The zero accumulator `whale_movements` starts from. -/
def Movements.init : Movements := ⟨0, 0, 0, []⟩

/-- Process one `tokenTransfers` entry: sign the amount by sender/receiver
and route it to the SOL, USDC, USDT or generic-token bucket
(src/parser.py lines 158-183). -/
def applyTokenTransfer (whale : String) (m : Movements) (t : TokenTransfer) :
    Movements :=
  if t.fromUserAccount = whale ∨ t.toUserAccount = whale then
    let delta : ℚ := if t.fromUserAccount = whale then -t.tokenAmount
                     else t.tokenAmount
    if t.mint = SOL_MINT ∨ t.mint = WSOL_MINT then
      { m with sol := radd m.sol delta }
    else if t.mint = USDC_MINT then
      { m with usdc := radd m.usdc delta }
    else if t.mint = USDT_MINT then
      { m with usdt := radd m.usdt delta }
    else
      { m with tokens := m.tokens ++ [⟨t.mint, delta, t.decimals⟩] }
  else m

/-- Process one `nativeTransfers` entry: convert lamports to SOL and
accumulate into the SOL bucket (src/parser.py lines 186-195). -/
def applyNativeTransfer (whale : String) (m : Movements) (t : NativeTransfer) :
    Movements :=
  let amountSol : ℚ := rdiv (t.amount : ℚ) LAMPORTS_PER_SOL
  if t.fromUserAccount = whale then { m with sol := rsub m.sol amountSol }
  else if t.toUserAccount = whale then { m with sol := radd m.sol amountSol }
  else m

/-- STEP 1 of `parse_transaction`: the movements derived from the explicit
`tokenTransfers` and `nativeTransfers` lists only
(src/parser.py lines 151-195). -/
def explicitMovements (tx : TxData) (whale : String) : Movements :=
  tx.nativeTransfers.foldl (applyNativeTransfer whale)
    (tx.tokenTransfers.foldl (applyTokenTransfer whale) Movements.init)

/-- The v1.0.4 fallback gate: when the explicit sources show a SOL net
below the dust threshold, re-derive the SOL delta from the first
`accountData` entry whose `account` is the whale, adopting its
`nativeBalanceChange` (converted to SOL) only when it is non-zero and its
magnitude clears the dust threshold (src/parser.py lines 208-220). -/
def applyFallback (tx : TxData) (whale : String) (m : Movements) : Movements :=
  if rabs m.sol < DUST_THRESHOLD_SOL then
    match tx.accountData.find? (fun a => a.account == whale) with
    | some a =>
        if a.nativeBalanceChange ≠ 0 then
          let accountSol : ℚ := rdiv (a.nativeBalanceChange : ℚ) LAMPORTS_PER_SOL
          if DUST_THRESHOLD_SOL ≤ rabs accountSol then { m with sol := accountSol }
          else m
        else m
    | none => m
  else m

/-- The Balance Delta Aggregator: explicit token/native movements followed
by the accountData fallback gate (src/parser.py lines 151-220). -/
def aggregate (tx : TxData) (whale : String) : Movements :=
  applyFallback tx whale (explicitMovements tx whale)

/-- Trade direction. -/
inductive TradeType where
  | BUY
  | SELL
deriving DecidableEq, Repr

/-- The input (payment-leg) asset: `'SOL'` or `'USDC'` in the code
(USDT is folded into the `'USDC'` label, src/parser.py line 241). -/
inductive Asset where
  | SOL
  | USDC
deriving DecidableEq, Repr

/-- `max(ts, key=lambda x: abs(x['amount']))` with `t` the first element:
Python's `max` keeps the current best on ties, so the first maximal entry
wins (src/parser.py lines 252, 282). -/
def maxAbsToken (t : TokenDelta) (ts : List TokenDelta) : TokenDelta :=
  ts.foldl (fun best x => if rabs best.amount < rabs x.amount then x else best) t

/-- STEP 2/3 direction choice: any received token ⇒ BUY with the
largest-|amount| received entry as output; otherwise any sent token ⇒ SELL
with the largest-|amount| sent entry; otherwise nothing
(src/parser.py lines 229-232, 249-253, 279-283). -/
def classifyDirection (tokens : List TokenDelta) :
    Option (TradeType × TokenDelta) :=
  let received := tokens.filter (fun t => decide (0 < t.amount))
  let sent := tokens.filter (fun t => decide (t.amount < 0))
  match received with
  | r :: rs => some (TradeType.BUY, maxAbsToken r rs)
  | [] =>
      match sent with
      | s :: ss => some (TradeType.SELL, maxAbsToken s ss)
      | [] => none

/-- STEP 3 input-asset resolution (src/parser.py lines 255-302):
BUY: stables spent beyond $1 ⇒ USDC; else SOL when the SOL bucket clears
dust and is negative; else any stable spent ⇒ USDC; else reject.
SELL is the mirror with signs reversed. -/
def resolveInput : TradeType → ℚ → ℚ → Option (Asset × ℚ)
  | TradeType.BUY, sol, stable =>
      if stable < -1 then some (Asset.USDC, rabs stable)
      else if DUST_THRESHOLD_SOL ≤ rabs sol ∧ sol < 0 then some (Asset.SOL, rabs sol)
      else if stable < 0 then some (Asset.USDC, rabs stable)
      else none
  | TradeType.SELL, sol, stable =>
      if 1 < stable then some (Asset.USDC, rabs stable)
      else if DUST_THRESHOLD_SOL ≤ rabs sol ∧ 0 < sol then some (Asset.SOL, rabs sol)
      else if 0 < stable then some (Asset.USDC, rabs stable)
      else none

/-- Why `parse_transaction` returns `None`; one constructor per rejection
site (the code collapses them all to `None`, logging distinct messages). -/
inductive RejectReason where
  /-- missing/empty `signature` (line 138). -/
  | noSignature
  /-- `transactionError` or `err` truthy (line 141). -/
  | txError
  /-- empty `tokenTransfers`, empty generic-token bucket, or no signed
  generic movement (lines 144-146, 225-226, 232-233, 304-305). -/
  | noTokenMovement
  /-- tokens moved but no SOL/stable payment leg (lines 267-277, 295-302). -/
  | noCounterAsset
  /-- final gate: SOL input below dust (lines 323-325). -/
  | dustSol
  /-- final gate: USD value below the minimum (lines 327-329). -/
  | belowMinUsd
deriving DecidableEq, Repr

/-- The pipeline's output record, restricted to the fields the code
computes from the event itself (the metadata-fetched symbol/market-cap/age
fields are external decorations and are not modelled). -/
structure Trade where
  tradeType : TradeType
  tokenMint : String
  tokenAmount : ℚ
  inputAsset : Asset
  solAmount : ℚ
  usdcAmount : ℚ
  inputAmount : ℚ
  solPrice : ℚ
  usdValue : ℚ
  whaleAddress : String
  signature : String
  timestamp : ℤ
  decimals : ℕ
deriving DecidableEq, Repr

/-- `TransactionParser.parse_transaction` (src/parser.py lines 124-366),
with the oracle price passed in as `price` and every `return None`
tagged with its `RejectReason`. -/
def parse_transaction (price : ℚ) (tx : TxData) (whale : String) :
    Except RejectReason Trade :=
  match tx.signature with
  | none => Except.error RejectReason.noSignature
  | some sig =>
      if sig = "" then Except.error RejectReason.noSignature
      else if tx.transactionError || tx.err then Except.error RejectReason.txError
      else if tx.tokenTransfers = [] then Except.error RejectReason.noTokenMovement
      else
        let m := aggregate tx whale
        if m.tokens = [] then Except.error RejectReason.noTokenMovement
        else
          match classifyDirection m.tokens with
          | none => Except.error RejectReason.noTokenMovement
          | some (tt, outTok) =>
              match resolveInput tt m.sol (radd m.usdc m.usdt) with
              | none => Except.error RejectReason.noCounterAsset
              | some (asset, amount) =>
                  let usd : ℚ :=
                    if asset = Asset.USDC then amount else rmul amount price
                  if amount < DUST_THRESHOLD_SOL ∧ asset = Asset.SOL then
                    Except.error RejectReason.dustSol
                  else if usd < MIN_USD_VALUE then
                    Except.error RejectReason.belowMinUsd
                  else
                    Except.ok
                      { tradeType := tt
                        tokenMint := outTok.mint
                        tokenAmount := rabs outTok.amount
                        inputAsset := asset
                        solAmount := if asset = Asset.SOL then amount else 0
                        usdcAmount := if asset = Asset.USDC then amount else 0
                        inputAmount := amount
                        solPrice := price
                        usdValue := usd
                        whaleAddress := whale
                        signature := sig
                        timestamp := tx.timestamp
                        decimals := outTok.decimals }

/-! ### Price oracle (`TransactionParser._get_sol_price`, src/parser.py 34-55) -/

/-- The class-level price cache: `_sol_price_cache` (`none` = Python `None`)
and `_sol_price_timestamp` (seconds). -/
structure PriceCache where
  cache : Option ℚ
  timestamp : ℚ
deriving DecidableEq, Repr

/-- Python truthiness of `_sol_price_cache`: `None` and `0.0` are falsy. -/
def cacheTruthy : Option ℚ → Bool
  | none => false
  | some p => p ≠ 0

/-- `_get_sol_price` (src/parser.py lines 34-55).  `now` is `time.time()`,
`fetchResult` is the outcome of the CoinGecko request (`some p` = the
request and JSON parsing produced price `p`; `none` = any exception).
Returns the price and the updated cache.  The TTL short-circuit is
`if _sol_price_cache and (now - _sol_price_timestamp) < 30`; the failure
path returns `_sol_price_cache or 200.0`. -/
def getSolPrice (now : ℚ) (fetchResult : Option ℚ) (st : PriceCache) :
    ℚ × PriceCache :=
  if cacheTruthy st.cache ∧ rsub now st.timestamp < 30 then
    (st.cache.getD 0, st)
  else
    match fetchResult with
    | some price => (price, ⟨some price, now⟩)
    | none =>
        (match st.cache with
         | some p => if p ≠ 0 then p else 200
         | none => 200, st)

/-! ### Delivery fan-out and dedup
(`MultiChatWhaleBot.process_transaction`, src/whale_bot.py 91-133, with the
dedup store `is_tx_processed` / `mark_tx_processed`, src/db_manager.py
300-320) -/

/-- One row of `db.get_whale_by_address(whale_address)`: the chat tracking
the whale, its label and the per-whale active flag. -/
structure WhaleEntry where
  chatId : ℤ
  label : String
  active : Bool
deriving DecidableEq, Repr

/-- The observable delivery state: the dedup store
(`processed_transactions` rows, as `(chat_id, signature)` pairs) and the
log of Telegram `send_message` calls made, in order. -/
structure BotState where
  processed : List (ℤ × String)
  sent : List (ℤ × String)
deriving DecidableEq, Repr

/-- The body of the per-entry loop of `process_transaction`
(src/whale_bot.py lines 104-130): skip when `is_tx_processed`, skip when
alerts are disabled or the entry is paused, otherwise attempt the send
(`sendOk e.chatId` tells whether `send_message` succeeds) and mark the
transaction processed only when the send succeeded (a `TelegramError`
hits `continue` before `mark_tx_processed`). -/
def processEntry (sendOk alertsEnabled : ℤ → Bool) (sig : String)
    (st : BotState) (e : WhaleEntry) : BotState :=
  if (e.chatId, sig) ∈ st.processed then st
  else if ¬ (alertsEnabled e.chatId && e.active) then st
  else
    let st1 : BotState := { st with sent := st.sent ++ [(e.chatId, sig)] }
    if sendOk e.chatId then
      { st1 with processed := st1.processed ++ [(e.chatId, sig)] }
    else st1

/-- The fan-out loop of `process_transaction` over all whale entries for
the address, for one classified trade with signature `sig`
(src/whale_bot.py lines 104-130). -/
def processTransaction (sendOk alertsEnabled : ℤ → Bool) (sig : String)
    (entries : List WhaleEntry) (st : BotState) : BotState :=
  entries.foldl (processEntry sendOk alertsEnabled sig) st

/-! ## General lemmas about the embedding -/

theorem dust_eq : DUST_THRESHOLD_SOL = 1 / 100 := by
  rw [DUST_THRESHOLD_SOL, Rat.divInt_eq_div]
  norm_num

theorem dust_pos : (0 : ℚ) < DUST_THRESHOLD_SOL := by
  rw [dust_eq]
  norm_num

theorem rabs_nonneg (q : ℚ) : 0 ≤ rabs q := by
  rw [rabs_eq_abs]
  exact abs_nonneg q

/-- Native transfers never touch the generic-token bucket. -/
theorem applyNativeTransfer_tokens (whale : String) (m : Movements)
    (t : NativeTransfer) : (applyNativeTransfer whale m t).tokens = m.tokens := by
  unfold applyNativeTransfer
  split_ifs <;> rfl

theorem nativeFold_tokens (whale : String) (l : List NativeTransfer)
    (m : Movements) :
    (l.foldl (applyNativeTransfer whale) m).tokens = m.tokens := by
  induction l generalizing m with
  | nil => rfl
  | cons t l ih => rw [List.foldl_cons, ih, applyNativeTransfer_tokens]

/-- The fallback gate never touches the generic-token bucket. -/
theorem applyFallback_tokens (tx : TxData) (whale : String) (m : Movements) :
    (applyFallback tx whale m).tokens = m.tokens := by
  unfold applyFallback
  split_ifs
  · cases h : tx.accountData.find? (fun a => a.account == whale) with
    | none => rfl
    | some a =>
        dsimp only
        split_ifs <;> rfl
  · rfl

/-- The fallback gate never touches the stablecoin buckets. -/
theorem applyFallback_usdc (tx : TxData) (whale : String) (m : Movements) :
    (applyFallback tx whale m).usdc = m.usdc := by
  unfold applyFallback
  split_ifs
  · cases h : tx.accountData.find? (fun a => a.account == whale) with
    | none => rfl
    | some a =>
        dsimp only
        split_ifs <;> rfl
  · rfl

theorem applyFallback_usdt (tx : TxData) (whale : String) (m : Movements) :
    (applyFallback tx whale m).usdt = m.usdt := by
  unfold applyFallback
  split_ifs
  · cases h : tx.accountData.find? (fun a => a.account == whale) with
    | none => rfl
    | some a =>
        dsimp only
        split_ifs <;> rfl
  · rfl

/-- A token-transfer entry that is not attributed to the whale, or whose
mint is SOL/WSOL/USDC/USDT, leaves the generic-token bucket unchanged. -/
theorem applyTokenTransfer_tokens_of_excluded (whale : String) (m : Movements)
    (t : TokenTransfer)
    (h : (t.fromUserAccount ≠ whale ∧ t.toUserAccount ≠ whale) ∨
      t.mint = SOL_MINT ∨ t.mint = WSOL_MINT ∨ t.mint = USDC_MINT ∨
      t.mint = USDT_MINT) :
    (applyTokenTransfer whale m t).tokens = m.tokens := by
  unfold applyTokenTransfer
  rcases h with ⟨h1, h2⟩ | h | h | h | h
  · rw [if_neg]
    intro hc
    rcases hc with hc | hc
    · exact h1 hc
    · exact h2 hc
  all_goals split_ifs <;> simp_all

/-- Folding token transfers that are all excluded (unattributed or
SOL/stable mints) leaves the generic-token bucket unchanged. -/
theorem tokenFold_tokens_of_excluded (whale : String) (l : List TokenTransfer)
    (m : Movements)
    (h : ∀ t ∈ l, (t.fromUserAccount ≠ whale ∧ t.toUserAccount ≠ whale) ∨
      t.mint = SOL_MINT ∨ t.mint = WSOL_MINT ∨ t.mint = USDC_MINT ∨
      t.mint = USDT_MINT) :
    (l.foldl (applyTokenTransfer whale) m).tokens = m.tokens := by
  induction l generalizing m with
  | nil => rfl
  | cons t l ih =>
      rw [List.foldl_cons, ih _ (fun u hu => h u (List.mem_cons_of_mem t hu)),
        applyTokenTransfer_tokens_of_excluded whale m t (h t (List.mem_cons_self t l))]

/-- When every token-transfer entry is excluded, the aggregator's
generic-token bucket is empty. -/
theorem aggregate_tokens_nil (tx : TxData) (whale : String)
    (h : ∀ t ∈ tx.tokenTransfers,
      (t.fromUserAccount ≠ whale ∧ t.toUserAccount ≠ whale) ∨
      t.mint = SOL_MINT ∨ t.mint = WSOL_MINT ∨ t.mint = USDC_MINT ∨
      t.mint = USDT_MINT) :
    (aggregate tx whale).tokens = [] := by
  rw [aggregate, applyFallback_tokens, explicitMovements, nativeFold_tokens,
    tokenFold_tokens_of_excluded whale _ _ h]
  rfl

/-- The foldl underlying `maxAbsToken` returns either the seed (when no
list element strictly beats it) or the first list element strictly greater
in `rabs`-magnitude than everything before it and not beaten afterwards. -/
theorem maxAbsToken_foldl_spec (b r : TokenDelta) (ts : List TokenDelta)
    (hr : ts.foldl
      (fun best x => if rabs best.amount < rabs x.amount then x else best) b
      = r) :
    (r = b ∧ ∀ x ∈ ts, rabs x.amount ≤ rabs b.amount) ∨
    (∃ l₁ l₂, ts = l₁ ++ r :: l₂ ∧ rabs b.amount < rabs r.amount ∧
      (∀ x ∈ l₁, rabs x.amount < rabs r.amount) ∧
      (∀ x ∈ l₂, rabs x.amount ≤ rabs r.amount)) := by
  induction ts generalizing b with
  | nil =>
      refine Or.inl ⟨hr.symm, ?_⟩
      intro x hx
      cases hx
  | cons t ts ih =>
      rw [List.foldl_cons] at hr
      by_cases hb : rabs b.amount < rabs t.amount
      · rw [if_pos hb] at hr
        rcases ih t hr with ⟨hrb, hall⟩ | ⟨l₁, l₂, hsplit, hgt, hlt, hle⟩
        · refine Or.inr ⟨[], ts, ?_, ?_, ?_, ?_⟩
          · rw [hrb, List.nil_append]
          · rw [hrb]
            exact hb
          · intro x hx
            cases hx
          · intro x hx
            rw [hrb]
            exact hall x hx
        · refine Or.inr ⟨t :: l₁, l₂, ?_, ?_, ?_, hle⟩
          · rw [List.cons_append, ← hsplit]
          · exact lt_trans hb hgt
          · intro x hx
            rcases List.mem_cons.mp hx with hx | hx
            · rw [hx]
              exact hgt
            · exact hlt x hx
      · rw [if_neg hb] at hr
        rcases ih b hr with ⟨hrb, hall⟩ | ⟨l₁, l₂, hsplit, hgt, hlt, hle⟩
        · refine Or.inl ⟨hrb, ?_⟩
          intro x hx
          rcases List.mem_cons.mp hx with hx | hx
          · rw [hx]
            exact le_of_not_lt hb
          · exact hall x hx
        · refine Or.inr ⟨t :: l₁, l₂, ?_, hgt, ?_, hle⟩
          · rw [List.cons_append, ← hsplit]
          · intro x hx
            rcases List.mem_cons.mp hx with hx | hx
            · rw [hx]
              exact lt_of_le_of_lt (le_of_not_lt hb) hgt
            · exact hlt x hx

theorem classifyDirection_buy (tokens : List TokenDelta) (r : TokenDelta)
    (rs : List TokenDelta)
    (h : tokens.filter (fun t => decide (0 < t.amount)) = r :: rs) :
    classifyDirection tokens = some (TradeType.BUY, maxAbsToken r rs) := by
  unfold classifyDirection
  rw [h]

theorem classifyDirection_sell (tokens : List TokenDelta) (s : TokenDelta)
    (ss : List TokenDelta)
    (h0 : tokens.filter (fun t => decide (0 < t.amount)) = [])
    (h : tokens.filter (fun t => decide (t.amount < 0)) = s :: ss) :
    classifyDirection tokens = some (TradeType.SELL, maxAbsToken s ss) := by
  unfold classifyDirection
  rw [h0, h]

/-- Any input amount the resolver returns is positive, and when the input
asset is SOL it is at least the dust threshold. -/
theorem resolveInput_pos (tt : TradeType) (sol stable : ℚ) (a : Asset)
    (amt : ℚ) (h : resolveInput tt sol stable = some (a, amt)) :
    0 < amt ∧ (a = Asset.SOL → DUST_THRESHOLD_SOL ≤ amt) := by
  cases tt with
  | BUY =>
      unfold resolveInput at h
      dsimp only at h
      split_ifs at h with h1 h2 h3
      · simp only [Option.some.injEq, Prod.mk.injEq] at h
        obtain ⟨ha, hamt⟩ := h
        subst ha hamt
        constructor
        · rw [rabs_eq_abs, abs_pos]
          intro hz
          rw [hz] at h1
          norm_num at h1
        · intro hsol
          cases hsol
      · simp only [Option.some.injEq, Prod.mk.injEq] at h
        obtain ⟨ha, hamt⟩ := h
        subst ha hamt
        refine ⟨lt_of_lt_of_le dust_pos h2.1, fun _ => h2.1⟩
      · simp only [Option.some.injEq, Prod.mk.injEq] at h
        obtain ⟨ha, hamt⟩ := h
        subst ha hamt
        constructor
        · rw [rabs_eq_abs, abs_pos]
          intro hz
          rw [hz] at h3
          norm_num at h3
        · intro hsol
          cases hsol
  | SELL =>
      unfold resolveInput at h
      dsimp only at h
      split_ifs at h with h1 h2 h3
      · simp only [Option.some.injEq, Prod.mk.injEq] at h
        obtain ⟨ha, hamt⟩ := h
        subst ha hamt
        constructor
        · rw [rabs_eq_abs, abs_pos]
          intro hz
          rw [hz] at h1
          norm_num at h1
        · intro hsol
          cases hsol
      · simp only [Option.some.injEq, Prod.mk.injEq] at h
        obtain ⟨ha, hamt⟩ := h
        subst ha hamt
        refine ⟨lt_of_lt_of_le dust_pos h2.1, fun _ => h2.1⟩
      · simp only [Option.some.injEq, Prod.mk.injEq] at h
        obtain ⟨ha, hamt⟩ := h
        subst ha hamt
        constructor
        · rw [rabs_eq_abs, abs_pos]
          intro hz
          rw [hz] at h3
          norm_num at h3
        · intro hsol
          cases hsol

/-- Inversion of a successful run of `parse_transaction`: recover every
check and intermediate value the success path passed through. -/
theorem parse_ok_elim {price : ℚ} {tx : TxData} {whale : String} {tr : Trade}
    (h : parse_transaction price tx whale = Except.ok tr) :
    ∃ sig tt outTok asset amount,
      tx.signature = some sig ∧ sig ≠ "" ∧
      tx.transactionError = false ∧ tx.err = false ∧
      tx.tokenTransfers ≠ [] ∧
      (aggregate tx whale).tokens ≠ [] ∧
      classifyDirection (aggregate tx whale).tokens = some (tt, outTok) ∧
      resolveInput tt (aggregate tx whale).sol
        (radd (aggregate tx whale).usdc (aggregate tx whale).usdt) =
        some (asset, amount) ∧
      ¬ (amount < DUST_THRESHOLD_SOL ∧ asset = Asset.SOL) ∧
      ¬ (if asset = Asset.USDC then amount else rmul amount price) <
        MIN_USD_VALUE ∧
      tr = { tradeType := tt
             tokenMint := outTok.mint
             tokenAmount := rabs outTok.amount
             inputAsset := asset
             solAmount := if asset = Asset.SOL then amount else 0
             usdcAmount := if asset = Asset.USDC then amount else 0
             inputAmount := amount
             solPrice := price
             usdValue := if asset = Asset.USDC then amount else rmul amount price
             whaleAddress := whale
             signature := sig
             timestamp := tx.timestamp
             decimals := outTok.decimals } := by
  unfold parse_transaction at h
  cases hsig : tx.signature with
  | none =>
      rw [hsig] at h
      cases h
  | some sig =>
      rw [hsig] at h
      dsimp only at h
      split_ifs at h with h1 h2 h3 h4
      obtain ⟨he1, he2⟩ : tx.transactionError = false ∧ tx.err = false := by
        constructor <;> [skip; skip] <;>
          · revert h2
            cases tx.transactionError <;> cases tx.err <;> simp
      cases hcd : classifyDirection (aggregate tx whale).tokens with
      | none =>
          rw [hcd] at h
          cases h
      | some p =>
          obtain ⟨tt, outTok⟩ := p
          rw [hcd] at h
          dsimp only at h
          cases hri : resolveInput tt (aggregate tx whale).sol
              (radd (aggregate tx whale).usdc (aggregate tx whale).usdt) with
          | none =>
              rw [hri] at h
              cases h
          | some q =>
              obtain ⟨asset, amount⟩ := q
              rw [hri] at h
              dsimp only at h
              by_cases h5 : amount < DUST_THRESHOLD_SOL ∧ asset = Asset.SOL
              · rw [if_pos h5] at h
                cases h
              · rw [if_neg h5] at h
                by_cases h6 : (if asset = Asset.USDC then amount
                    else rmul amount price) < MIN_USD_VALUE
                · rw [if_pos h6] at h
                  cases h
                · rw [if_neg h6] at h
                  simp only [Except.ok.injEq] at h
                  exact ⟨sig, tt, outTok, asset, amount, rfl, h1, he1, he2,
                    h3, h4, rfl, hri, h5, h6, h.symm⟩

/-- When the explicit SOL net is dusty and the whale's accountData entry
clears the dust threshold, the fallback adopts the accountData value. -/
theorem applyFallback_adopt (tx : TxData) (whale : String) (m : Movements)
    (a : AccountData) (hlow : rabs m.sol < DUST_THRESHOLD_SOL)
    (hfind : tx.accountData.find? (fun x => x.account == whale) = some a)
    (hge : DUST_THRESHOLD_SOL ≤
      rabs (rdiv (a.nativeBalanceChange : ℚ) LAMPORTS_PER_SOL)) :
    (applyFallback tx whale m).sol =
      rdiv (a.nativeBalanceChange : ℚ) LAMPORTS_PER_SOL := by
  have h0 : a.nativeBalanceChange ≠ 0 := by
    intro h0
    rw [h0] at hge
    have : rdiv ((0 : ℤ) : ℚ) LAMPORTS_PER_SOL = 0 := by
      rw [rdiv_eq]
      norm_num
    rw [this] at hge
    have : rabs (0 : ℚ) = 0 := by
      rw [rabs_eq_abs, abs_zero]
    rw [this] at hge
    exact absurd hge (not_le.mpr dust_pos)
  unfold applyFallback
  rw [if_pos hlow, hfind]
  dsimp only
  rw [if_pos h0, if_pos hge]

/-- When the whale's accountData entry is itself below the dust threshold,
the fallback keeps the explicit SOL net. -/
theorem applyFallback_keep (tx : TxData) (whale : String) (m : Movements)
    (a : AccountData) (hlow : rabs m.sol < DUST_THRESHOLD_SOL)
    (hfind : tx.accountData.find? (fun x => x.account == whale) = some a)
    (hlt : rabs (rdiv (a.nativeBalanceChange : ℚ) LAMPORTS_PER_SOL) <
      DUST_THRESHOLD_SOL) :
    (applyFallback tx whale m).sol = m.sol := by
  unfold applyFallback
  rw [if_pos hlow, hfind]
  dsimp only
  by_cases h0 : a.nativeBalanceChange ≠ 0
  · rw [if_pos h0, if_neg (not_le.mpr hlt)]
  · rw [if_neg h0]

/-- C1: when the net native delta from the explicit token/native transfer
entries is below the dust threshold (0.01 SOL), the aggregator re-derives
the native delta from the accountData entry for the tracked address,
adopting the converted value exactly when its magnitude is at least the
dust threshold; in particular explicit −0.000005 SOL with an accountData
change of −3.1 SOL (−3100000000 lamports) yields an adopted delta of
−3.1 SOL. -/
theorem claim_C1_fallback_adoption (tx : TxData) (whale : String)
    (a : AccountData)
    (hlow : rabs (explicitMovements tx whale).sol < DUST_THRESHOLD_SOL)
    (hfind : tx.accountData.find? (fun x => x.account == whale) = some a) :
    (DUST_THRESHOLD_SOL ≤
        rabs (rdiv (a.nativeBalanceChange : ℚ) LAMPORTS_PER_SOL) →
      (aggregate tx whale).sol =
        rdiv (a.nativeBalanceChange : ℚ) LAMPORTS_PER_SOL)
    ∧ (rabs (rdiv (a.nativeBalanceChange : ℚ) LAMPORTS_PER_SOL) <
        DUST_THRESHOLD_SOL →
      (aggregate tx whale).sol = (explicitMovements tx whale).sol)
    ∧ ((explicitMovements tx whale).sol = Rat.divInt (-1) 200000 →
      a.nativeBalanceChange = -3100000000 →
      (aggregate tx whale).sol = Rat.divInt (-31) 10) := by
  refine ⟨?_, ?_, ?_⟩
  · intro hge
    exact applyFallback_adopt tx whale _ a hlow hfind hge
  · intro hlt
    exact applyFallback_keep tx whale _ a hlow hfind hlt
  · intro _ hc
    have hge : DUST_THRESHOLD_SOL ≤
        rabs (rdiv (a.nativeBalanceChange : ℚ) LAMPORTS_PER_SOL) := by
      rw [hc]
      decide
    unfold aggregate
    rw [applyFallback_adopt tx whale _ a hlow hfind hge, hc]
    decide

def txC1w : TxData :=
  { signature := some "sigC1"
    transactionError := false
    err := false
    tokenTransfers := []
    nativeTransfers := [⟨"whaleA", "feePayee", 5000⟩]
    accountData := [⟨"whaleA", -3100000000⟩]
    timestamp := 0 }

/-- Witness for C1: the spec's fallback-adoption scenario run concretely. -/
theorem claim_C1_fallback_adoption_witness :
    (aggregate txC1w "whaleA").sol = Rat.divInt (-31) 10 :=
  (claim_C1_fallback_adoption txC1w "whaleA" ⟨"whaleA", -3100000000⟩
    (by decide) (by decide)).2.2 (by decide) (by decide)

/-- C4: an event with no generic-token movement attributed to the tracked
address (empty token-transfer list, or only unattributed/SOL/stable
entries) is rejected as NoTokenMovement. -/
theorem claim_C4_no_token_movement (price : ℚ) (tx : TxData) (whale : String)
    (hsig : sigTruthy tx.signature = true)
    (hte : tx.transactionError = false) (herr : tx.err = false)
    (hx : ∀ t ∈ tx.tokenTransfers,
      (t.fromUserAccount ≠ whale ∧ t.toUserAccount ≠ whale) ∨
      t.mint = SOL_MINT ∨ t.mint = WSOL_MINT ∨ t.mint = USDC_MINT ∨
      t.mint = USDT_MINT) :
    parse_transaction price tx whale =
      Except.error RejectReason.noTokenMovement := by
  unfold parse_transaction
  split
  · rename_i hnone
    rw [hnone] at hsig
    simp [sigTruthy] at hsig
  · rename_i sig hsome
    rw [hsome] at hsig
    have hne : ¬ sig = "" := by
      simpa [sigTruthy] using hsig
    rw [if_neg hne, hte, herr]
    rw [if_neg (by simp)]
    by_cases htt : tx.tokenTransfers = []
    · rw [if_pos htt]
    · rw [if_neg htt]
      dsimp only
      rw [if_pos (aggregate_tokens_nil tx whale hx)]

def txC4w : TxData :=
  { signature := some "sigC4"
    transactionError := false
    err := false
    tokenTransfers := [⟨"whaleA", "pool", USDC_MINT, 250, 6⟩,
                       ⟨"other", "pool2", "SomeRandomMint", 10, 6⟩]
    nativeTransfers := [⟨"pool", "whaleA", 1500000000⟩]
    accountData := []
    timestamp := 0 }

/-- Witness for C4: stablecoin-only and unattributed movements reject. -/
theorem claim_C4_no_token_movement_witness :
    parse_transaction 150 txC4w "whaleA" =
      Except.error RejectReason.noTokenMovement :=
  claim_C4_no_token_movement 150 txC4w "whaleA" (by decide) (by decide)
    (by decide) (by decide)

/-- C9: an event whose transactionError or err field is truthy is always
rejected, whatever its transfer lists contain. -/
theorem claim_C9_failed_tx_rejected (price : ℚ) (tx : TxData)
    (whale : String) (h : (tx.transactionError || tx.err) = true) :
    ∃ r, parse_transaction price tx whale = Except.error r := by
  unfold parse_transaction
  split
  · exact ⟨RejectReason.noSignature, rfl⟩
  · rename_i s hsome
    by_cases hs : s = ""
    · rw [if_pos hs]
      exact ⟨RejectReason.noSignature, rfl⟩
    · rw [if_neg hs, if_pos h]
      exact ⟨RejectReason.txError, rfl⟩

def txC9w : TxData :=
  { signature := some "sigC9"
    transactionError := true
    err := false
    tokenTransfers := [⟨"pool", "whaleA", "SomeRandomMint", 100, 6⟩]
    nativeTransfers := [⟨"whaleA", "pool", 2000000000⟩]
    accountData := []
    timestamp := 0 }

/-- Witness for C9: a failed swap-shaped event still yields no trade. -/
theorem claim_C9_failed_tx_rejected_witness :
    ∃ r, parse_transaction 150 txC9w "whaleA" = Except.error r :=
  claim_C9_failed_tx_rejected 150 txC9w "whaleA" (by decide)

/-- `maxAbsToken` returns an element of the candidate list. -/
theorem maxAbsToken_mem (t : TokenDelta) (ts : List TokenDelta) :
    maxAbsToken t ts ∈ t :: ts := by
  rcases maxAbsToken_foldl_spec t (maxAbsToken t ts) ts rfl with
    ⟨hr, _⟩ | ⟨l₁, l₂, hsplit, _, _, _⟩
  · rw [hr]
    exact List.mem_cons_self t ts
  · refine List.mem_cons_of_mem t ?_
    have hmem : maxAbsToken t ts ∈ l₁ ++ maxAbsToken t ts :: l₂ :=
      List.mem_append_right l₁ (List.mem_cons_self _ l₂)
    rw [← hsplit] at hmem
    exact hmem

/-- Inversion of `classifyDirection`: the direction and output token come
from the received bucket when it is non-empty (BUY), otherwise from the
sent bucket (SELL). -/
theorem classifyDirection_cases (tokens : List TokenDelta) (tt : TradeType)
    (outTok : TokenDelta)
    (h : classifyDirection tokens = some (tt, outTok)) :
    (tt = TradeType.BUY ∧ ∃ r rs,
      tokens.filter (fun t => decide (0 < t.amount)) = r :: rs ∧
      outTok = maxAbsToken r rs) ∨
    (tt = TradeType.SELL ∧
      tokens.filter (fun t => decide (0 < t.amount)) = [] ∧ ∃ u us,
      tokens.filter (fun t => decide (t.amount < 0)) = u :: us ∧
      outTok = maxAbsToken u us) := by
  unfold classifyDirection at h
  cases hpos : tokens.filter (fun t => decide (0 < t.amount)) with
  | cons r rs =>
      rw [hpos] at h
      dsimp only at h
      simp only [Option.some.injEq, Prod.mk.injEq] at h
      exact Or.inl ⟨h.1.symm, r, rs, rfl, h.2.symm⟩
  | nil =>
      rw [hpos] at h
      dsimp only at h
      cases hneg : tokens.filter (fun t => decide (t.amount < 0)) with
      | nil =>
          rw [hneg] at h
          cases h
      | cons u us =>
          rw [hneg] at h
          dsimp only at h
          simp only [Option.some.injEq, Prod.mk.injEq] at h
          exact Or.inr ⟨h.1.symm, rfl, u, us, rfl, h.2.symm⟩

/-- The output token picked by `classifyDirection` has a non-zero amount
(it comes from the strictly-positive or strictly-negative bucket). -/
theorem classifyDirection_amount_ne_zero (tokens : List TokenDelta)
    (tt : TradeType) (outTok : TokenDelta)
    (h : classifyDirection tokens = some (tt, outTok)) :
    outTok.amount ≠ 0 := by
  rcases classifyDirection_cases tokens tt outTok h with
    ⟨_, r, rs, hpos, hout⟩ | ⟨_, _, u, us, hneg, hout⟩
  · have hmem : outTok ∈ r :: rs := by
      rw [hout]
      exact maxAbsToken_mem r rs
    rw [← hpos] at hmem
    have := (List.mem_filter.mp hmem).2
    have hgt : 0 < outTok.amount := of_decide_eq_true this
    exact ne_of_gt hgt
  · have hmem : outTok ∈ u :: us := by
      rw [hout]
      exact maxAbsToken_mem u us
    rw [← hneg] at hmem
    have := (List.mem_filter.mp hmem).2
    have hlt : outTok.amount < 0 := of_decide_eq_true this
    exact ne_of_lt hlt

/-- C5: every trade the parser returns has positive output quantity,
positive input quantity, USD value at least the configured minimum, and —
when the input asset is SOL — input amount at least the dust threshold
(so the final gate's dust and minimum-value rejections really hold of
everything returned). -/
theorem claim_C5_output_invariants (price : ℚ) (tx : TxData)
    (whale : String) (tr : Trade)
    (h : parse_transaction price tx whale = Except.ok tr) :
    0 < tr.tokenAmount ∧ 0 < tr.inputAmount ∧
    MIN_USD_VALUE ≤ tr.usdValue ∧
    (tr.inputAsset = Asset.SOL → DUST_THRESHOLD_SOL ≤ tr.inputAmount) := by
  obtain ⟨sig, tt, outTok, asset, amount, hsig, hne, hte, herr, htt, htok,
    hcd, hri, hg1, hg2, htr⟩ := parse_ok_elim h
  subst htr
  have hnz := classifyDirection_amount_ne_zero _ _ _ hcd
  have hpos := resolveInput_pos _ _ _ _ _ hri
  refine ⟨?_, hpos.1, not_lt.mp hg2, hpos.2⟩
  rw [rabs_eq_abs]
  exact abs_pos.mpr hnz

def txC5w : TxData :=
  { signature := some "sigC5"
    transactionError := false
    err := false
    tokenTransfers := [⟨"pool", "whaleA", "SomeRandomMint", 1000000, 6⟩]
    nativeTransfers := [⟨"whaleA", "pool", 2500000000⟩]
    accountData := []
    timestamp := 7 }

def tradeC5w : Trade :=
  { tradeType := TradeType.BUY
    tokenMint := "SomeRandomMint"
    tokenAmount := 1000000
    inputAsset := Asset.SOL
    solAmount := Rat.divInt 5 2
    usdcAmount := 0
    inputAmount := Rat.divInt 5 2
    solPrice := 150
    usdValue := 375
    whaleAddress := "whaleA"
    signature := "sigC5"
    timestamp := 7
    decimals := 6 }

/-- Witness for C5: a concrete accepted BUY satisfies the invariants. -/
theorem claim_C5_output_invariants_witness :
    parse_transaction 150 txC5w "whaleA" = Except.ok tradeC5w ∧
    0 < tradeC5w.tokenAmount ∧ MIN_USD_VALUE ≤ tradeC5w.usdValue :=
  ⟨by decide,
    (claim_C5_output_invariants 150 txC5w "whaleA" tradeC5w (by decide)).1,
    (claim_C5_output_invariants 150 txC5w "whaleA" tradeC5w
      (by decide)).2.2.1⟩

/-- C10: the final gate's native-dust rejection branch is unreachable —
the parser never returns the `dustSol` rejection, because the input
resolver only selects SOL when its magnitude already clears the dust
threshold. -/
theorem claim_C10_dust_gate_unreachable (price : ℚ) (tx : TxData)
    (whale : String) :
    parse_transaction price tx whale ≠ Except.error RejectReason.dustSol := by
  intro h
  unfold parse_transaction at h
  cases hsig : tx.signature with
  | none =>
      rw [hsig] at h
      exact absurd (Except.error.inj h) (by simp)
  | some sig =>
      rw [hsig] at h
      dsimp only at h
      split_ifs at h with h1 h2 h3 h4
      · exact absurd (Except.error.inj h) (by simp)
      · exact absurd (Except.error.inj h) (by simp)
      · exact absurd (Except.error.inj h) (by simp)
      · exact absurd (Except.error.inj h) (by simp)
      · cases hcd : classifyDirection (aggregate tx whale).tokens with
        | none =>
            rw [hcd] at h
            exact absurd (Except.error.inj h) (by simp)
        | some p =>
            obtain ⟨tt, outTok⟩ := p
            rw [hcd] at h
            dsimp only at h
            cases hri : resolveInput tt (aggregate tx whale).sol
                (radd (aggregate tx whale).usdc (aggregate tx whale).usdt) with
            | none =>
                rw [hri] at h
                exact absurd (Except.error.inj h) (by simp)
            | some q =>
                obtain ⟨asset, amount⟩ := q
                rw [hri] at h
                dsimp only at h
                by_cases h5 : amount < DUST_THRESHOLD_SOL ∧ asset = Asset.SOL
                · have := (resolveInput_pos _ _ _ _ _ hri).2 h5.2
                  exact absurd h5.1 (not_lt.mpr this)
                · rw [if_neg h5] at h
                  by_cases h6 : (if asset = Asset.USDC then amount
                      else rmul amount price) < MIN_USD_VALUE
                  · rw [if_pos h6] at h
                    exact absurd (Except.error.inj h) (by simp)
                  · rw [if_neg h6] at h
                    exact Except.noConfusion h

def txC10w : TxData :=
  { signature := some "sigC10"
    transactionError := false
    err := false
    tokenTransfers := [⟨"whaleA", "pool", "SomeRandomMint", 500, 6⟩]
    nativeTransfers := [⟨"pool", "whaleA", 3000000⟩]
    accountData := []
    timestamp := 0 }

/-- Witness for C10: a dusty-SOL sell is not rejected as `dustSol` (here
it is rejected as `noCounterAsset` by the resolver instead). -/
theorem claim_C10_dust_gate_unreachable_witness :
    parse_transaction 150 txC10w "whaleA" ≠
      Except.error RejectReason.dustSol :=
  claim_C10_dust_gate_unreachable 150 txC10w "whaleA"

/-- C3: with at least one received generic token the direction is BUY (also
when sent tokens are present) and the output token is the first received
entry of maximal absolute amount; with only sent generic tokens the
direction is SELL and the output token is the first sent entry of maximal
absolute amount.  Firstness is expressed by the decomposition: everything
before the winner is strictly smaller in magnitude, everything after is no
larger. -/
theorem claim_C3_direction_and_output (tokens : List TokenDelta) :
    (tokens.filter (fun t => decide (0 < t.amount)) ≠ [] →
      ∃ outTok l₁ l₂,
        classifyDirection tokens = some (TradeType.BUY, outTok) ∧
        tokens.filter (fun t => decide (0 < t.amount)) =
          l₁ ++ outTok :: l₂ ∧
        (∀ u ∈ l₁, rabs u.amount < rabs outTok.amount) ∧
        (∀ u ∈ l₂, rabs u.amount ≤ rabs outTok.amount))
    ∧ (tokens.filter (fun t => decide (0 < t.amount)) = [] →
       tokens.filter (fun t => decide (t.amount < 0)) ≠ [] →
      ∃ outTok l₁ l₂,
        classifyDirection tokens = some (TradeType.SELL, outTok) ∧
        tokens.filter (fun t => decide (t.amount < 0)) =
          l₁ ++ outTok :: l₂ ∧
        (∀ u ∈ l₁, rabs u.amount < rabs outTok.amount) ∧
        (∀ u ∈ l₂, rabs u.amount ≤ rabs outTok.amount)) := by
  constructor
  · intro hne
    obtain ⟨r, rs, hpos⟩ := List.exists_cons_of_ne_nil hne
    refine ⟨maxAbsToken r rs, ?_⟩
    have hcl := classifyDirection_buy tokens r rs hpos
    rcases maxAbsToken_foldl_spec r (maxAbsToken r rs) rs rfl with
      ⟨hr, hall⟩ | ⟨l₁, l₂, hsplit, hgt, hlt, hle⟩
    · refine ⟨[], rs, hcl, ?_, ?_, ?_⟩
      · rw [hpos, hr, List.nil_append]
      · intro u hu
        cases hu
      · intro u hu
        rw [hr]
        exact hall u hu
    · refine ⟨r :: l₁, l₂, hcl, ?_, ?_, hle⟩
      · rw [hpos]
        conv_lhs => rw [hsplit]
        exact (List.cons_append r l₁ _).symm
      · intro u hu
        rcases List.mem_cons.mp hu with hu | hu
        · rw [hu]
          exact hgt
        · exact hlt u hu
  · intro hpos hne
    obtain ⟨u, us, hneg⟩ := List.exists_cons_of_ne_nil hne
    refine ⟨maxAbsToken u us, ?_⟩
    have hcl := classifyDirection_sell tokens u us hpos hneg
    rcases maxAbsToken_foldl_spec u (maxAbsToken u us) us rfl with
      ⟨hr, hall⟩ | ⟨l₁, l₂, hsplit, hgt, hlt, hle⟩
    · refine ⟨[], us, hcl, ?_, ?_, ?_⟩
      · rw [hneg, hr, List.nil_append]
      · intro v hv
        cases hv
      · intro v hv
        rw [hr]
        exact hall v hv
    · refine ⟨u :: l₁, l₂, hcl, ?_, ?_, hle⟩
      · rw [hneg]
        conv_lhs => rw [hsplit]
        exact (List.cons_append u l₁ _).symm
      · intro v hv
        rcases List.mem_cons.mp hv with hv | hv
        · rw [hv]
          exact hgt
        · exact hlt v hv

def tokensC3w : List TokenDelta :=
  [⟨"MintA", 5, 6⟩, ⟨"MintB", -7, 6⟩, ⟨"MintC", 5, 6⟩]

/-- Witness for C3: mixed received/sent deltas give BUY; the tie between
the two +5 entries is broken in favour of the first. -/
theorem claim_C3_direction_and_output_witness :
    (∃ outTok l₁ l₂,
      classifyDirection tokensC3w = some (TradeType.BUY, outTok) ∧
      tokensC3w.filter (fun t => decide (0 < t.amount)) =
        l₁ ++ outTok :: l₂ ∧
      (∀ u ∈ l₁, rabs u.amount < rabs outTok.amount) ∧
      (∀ u ∈ l₂, rabs u.amount ≤ rabs outTok.amount)) ∧
    classifyDirection tokensC3w = some (TradeType.BUY, ⟨"MintA", 5, 6⟩) :=
  ⟨(claim_C3_direction_and_output tokensC3w).1 (by decide), by decide⟩

/-- The input-asset resolution exactly as claim C2 states it (first trial
keyed on the stablecoin bucket NET MAGNITUDE only, with no spending-sign
requirement); written to be compared with the code's `resolveInput`. -/
def resolveInputClaimed : TradeType → ℚ → ℚ → Option (Asset × ℚ)
  | TradeType.BUY, sol, stable =>
      if 1 < rabs stable then some (Asset.USDC, rabs stable)
      else if DUST_THRESHOLD_SOL ≤ rabs sol ∧ sol < 0 then
        some (Asset.SOL, rabs sol)
      else if stable < 0 then some (Asset.USDC, rabs stable)
      else none
  | TradeType.SELL, sol, stable =>
      if 1 < rabs stable then some (Asset.USDC, rabs stable)
      else if DUST_THRESHOLD_SOL ≤ rabs sol ∧ 0 < sol then
        some (Asset.SOL, rabs sol)
      else if 0 < stable then some (Asset.USDC, rabs stable)
      else none

def txC2c : TxData :=
  { signature := some "sigC2c"
    transactionError := false
    err := false
    tokenTransfers := [⟨"pool", "whaleA", USDC_MINT, 5, 6⟩,
                       ⟨"pool", "whaleA", "SomeRandomMint", 100, 6⟩]
    nativeTransfers := []
    accountData := []
    timestamp := 0 }

/-- Counterexample to C2 as stated: a BUY where the whale RECEIVES $5 of
stablecoin (net magnitude 5 > 1, so the claim's first trial fires and
predicts a stablecoin input of 5), yet the code requires the spending
direction (`stable_change < -1`) and, with no SOL spent either, rejects
the event as NoCounterAsset. -/
theorem claim_C2_counterexample :
    (aggregate txC2c "whaleA").tokens.filter
      (fun t => decide (0 < t.amount)) ≠ [] ∧
    radd (aggregate txC2c "whaleA").usdc (aggregate txC2c "whaleA").usdt
      = 5 ∧
    resolveInputClaimed TradeType.BUY (aggregate txC2c "whaleA").sol
        (radd (aggregate txC2c "whaleA").usdc
          (aggregate txC2c "whaleA").usdt) =
      some (Asset.USDC, 5) ∧
    parse_transaction 150 txC2c "whaleA" =
      Except.error RejectReason.noCounterAsset := by
  refine ⟨by decide, by decide, by decide, by decide⟩

/-- C2 (amended): the input-asset trial order holds with the spending
(for BUY) or receiving (for SELL) direction required on the stablecoin
branches as well: stablecoin when the net stablecoin delta is beyond $1
in that direction; else SOL when the SOL bucket clears dust with the
right sign; else stablecoin for any non-zero movement in that direction;
else the event is rejected as NoCounterAsset. -/
theorem claim_C2_amended_input_resolution (price : ℚ) (tx : TxData)
    (whale : String) (m : Movements) (stable : ℚ)
    (hm : m = aggregate tx whale) (hst : stable = m.usdc + m.usdt) :
    (∀ tr, parse_transaction price tx whale = Except.ok tr →
      m.tokens.filter (fun t => decide (0 < t.amount)) ≠ [] →
      ((stable < -1 →
          tr.inputAsset = Asset.USDC ∧ tr.inputAmount = rabs stable)
       ∧ (¬ stable < -1 → DUST_THRESHOLD_SOL ≤ rabs m.sol → m.sol < 0 →
           tr.inputAsset = Asset.SOL ∧ tr.inputAmount = rabs m.sol)
       ∧ (¬ stable < -1 → ¬ (DUST_THRESHOLD_SOL ≤ rabs m.sol ∧ m.sol < 0) →
           stable < 0 →
           tr.inputAsset = Asset.USDC ∧ tr.inputAmount = rabs stable)))
    ∧ (∀ tr, parse_transaction price tx whale = Except.ok tr →
      m.tokens.filter (fun t => decide (0 < t.amount)) = [] →
      ((1 < stable →
          tr.inputAsset = Asset.USDC ∧ tr.inputAmount = rabs stable)
       ∧ (¬ 1 < stable → DUST_THRESHOLD_SOL ≤ rabs m.sol → 0 < m.sol →
           tr.inputAsset = Asset.SOL ∧ tr.inputAmount = rabs m.sol)
       ∧ (¬ 1 < stable → ¬ (DUST_THRESHOLD_SOL ≤ rabs m.sol ∧ 0 < m.sol) →
           0 < stable →
           tr.inputAsset = Asset.USDC ∧ tr.inputAmount = rabs stable)))
    ∧ (sigTruthy tx.signature = true → tx.transactionError = false →
       tx.err = false → tx.tokenTransfers ≠ [] →
       m.tokens.filter (fun t => decide (0 < t.amount)) ≠ [] →
       ¬ stable < -1 → ¬ (DUST_THRESHOLD_SOL ≤ rabs m.sol ∧ m.sol < 0) →
       ¬ stable < 0 →
       parse_transaction price tx whale =
         Except.error RejectReason.noCounterAsset)
    ∧ (sigTruthy tx.signature = true → tx.transactionError = false →
       tx.err = false → tx.tokenTransfers ≠ [] →
       m.tokens.filter (fun t => decide (0 < t.amount)) = [] →
       m.tokens.filter (fun t => decide (t.amount < 0)) ≠ [] →
       ¬ 1 < stable → ¬ (DUST_THRESHOLD_SOL ≤ rabs m.sol ∧ 0 < m.sol) →
       ¬ 0 < stable →
       parse_transaction price tx whale =
         Except.error RejectReason.noCounterAsset) := by
  subst hm
  have hstable : radd (aggregate tx whale).usdc (aggregate tx whale).usdt
      = stable := by
    rw [radd_eq, hst]
  refine ⟨?_, ?_, ?_, ?_⟩
  · intro tr hok hrec
    obtain ⟨sig, tt, outTok, asset, amount, hsig, hne, hte, herr, htt, htok,
      hcd, hri, hg1, hg2, htr⟩ := parse_ok_elim hok
    have htb : tt = TradeType.BUY := by
      rcases classifyDirection_cases _ _ _ hcd with ⟨hb, _⟩ | ⟨_, hemp, _⟩
      · exact hb
      · exact absurd hemp hrec
    rw [htb, hstable] at hri
    subst htr
    refine ⟨?_, ?_, ?_⟩
    · intro h1
      unfold resolveInput at hri
      dsimp only at hri
      rw [if_pos h1] at hri
      simp only [Option.some.injEq, Prod.mk.injEq] at hri
      exact ⟨hri.1.symm, hri.2.symm⟩
    · intro h1 h2 h3
      unfold resolveInput at hri
      dsimp only at hri
      rw [if_neg h1, if_pos ⟨h2, h3⟩] at hri
      simp only [Option.some.injEq, Prod.mk.injEq] at hri
      exact ⟨hri.1.symm, hri.2.symm⟩
    · intro h1 h2 h3
      unfold resolveInput at hri
      dsimp only at hri
      rw [if_neg h1, if_neg h2, if_pos h3] at hri
      simp only [Option.some.injEq, Prod.mk.injEq] at hri
      exact ⟨hri.1.symm, hri.2.symm⟩
  · intro tr hok hrec
    obtain ⟨sig, tt, outTok, asset, amount, hsig, hne, hte, herr, htt, htok,
      hcd, hri, hg1, hg2, htr⟩ := parse_ok_elim hok
    have hts : tt = TradeType.SELL := by
      rcases classifyDirection_cases _ _ _ hcd with ⟨_, r, rs, hpos, _⟩ |
        ⟨hs, _, _⟩
      · rw [hrec] at hpos
        cases hpos
      · exact hs
    rw [hts, hstable] at hri
    subst htr
    refine ⟨?_, ?_, ?_⟩
    · intro h1
      unfold resolveInput at hri
      dsimp only at hri
      rw [if_pos h1] at hri
      simp only [Option.some.injEq, Prod.mk.injEq] at hri
      exact ⟨hri.1.symm, hri.2.symm⟩
    · intro h1 h2 h3
      unfold resolveInput at hri
      dsimp only at hri
      rw [if_neg h1, if_pos ⟨h2, h3⟩] at hri
      simp only [Option.some.injEq, Prod.mk.injEq] at hri
      exact ⟨hri.1.symm, hri.2.symm⟩
    · intro h1 h2 h3
      unfold resolveInput at hri
      dsimp only at hri
      rw [if_neg h1, if_neg h2, if_pos h3] at hri
      simp only [Option.some.injEq, Prod.mk.injEq] at hri
      exact ⟨hri.1.symm, hri.2.symm⟩
  · intro hsigT hte herr htt hrec h1 h2 h3
    obtain ⟨r, rs, hpos⟩ := List.exists_cons_of_ne_nil hrec
    have htoknil : (aggregate tx whale).tokens ≠ [] := by
      intro hnil
      rw [hnil] at hpos
      cases hpos
    unfold parse_transaction
    split
    · rename_i hnone
      rw [hnone] at hsigT
      simp [sigTruthy] at hsigT
    · rename_i sig hsome
      rw [hsome] at hsigT
      have hne : ¬ sig = "" := by
        simpa [sigTruthy] using hsigT
      rw [if_neg hne, hte, herr]
      rw [if_neg (by simp), if_neg htt]
      dsimp only
      rw [if_neg htoknil, classifyDirection_buy _ r rs hpos]
      dsimp only
      have hres : resolveInput TradeType.BUY (aggregate tx whale).sol
          (radd (aggregate tx whale).usdc (aggregate tx whale).usdt) =
          none := by
        rw [hstable]
        unfold resolveInput
        dsimp only
        rw [if_neg h1, if_neg h2, if_neg h3]
      rw [hres]
  · intro hsigT hte herr htt hrec hsent h1 h2 h3
    obtain ⟨u, us, hneg⟩ := List.exists_cons_of_ne_nil hsent
    have htoknil : (aggregate tx whale).tokens ≠ [] := by
      intro hnil
      rw [hnil] at hneg
      cases hneg
    unfold parse_transaction
    split
    · rename_i hnone
      rw [hnone] at hsigT
      simp [sigTruthy] at hsigT
    · rename_i sig hsome
      rw [hsome] at hsigT
      have hne : ¬ sig = "" := by
        simpa [sigTruthy] using hsigT
      rw [if_neg hne, hte, herr]
      rw [if_neg (by simp), if_neg htt]
      dsimp only
      rw [if_neg htoknil, classifyDirection_sell _ u us hrec hneg]
      dsimp only
      have hres : resolveInput TradeType.SELL (aggregate tx whale).sol
          (radd (aggregate tx whale).usdc (aggregate tx whale).usdt) =
          none := by
        rw [hstable]
        unfold resolveInput
        dsimp only
        rw [if_neg h1, if_neg h2, if_neg h3]
      rw [hres]

def txC2w : TxData :=
  { signature := some "sigC2w"
    transactionError := false
    err := false
    tokenTransfers := [⟨"pool", "whaleA", "SomeRandomMint", 100, 6⟩]
    nativeTransfers := [⟨"whaleA", "pool", 2000000000⟩]
    accountData := []
    timestamp := 0 }

def tradeC2w : Trade :=
  { tradeType := TradeType.BUY
    tokenMint := "SomeRandomMint"
    tokenAmount := 100
    inputAsset := Asset.SOL
    solAmount := 2
    usdcAmount := 0
    inputAmount := 2
    solPrice := 150
    usdValue := 300
    whaleAddress := "whaleA"
    signature := "sigC2w"
    timestamp := 0
    decimals := 6 }

/-- Witness for the amended C2: a concrete BUY paid in SOL hits the second
trial (no stablecoin spent beyond $1, SOL clears dust with spending sign). -/
theorem claim_C2_amended_input_resolution_witness :
    tradeC2w.inputAsset = Asset.SOL ∧
    tradeC2w.inputAmount = rabs (aggregate txC2w "whaleA").sol := by
  have hst : (0 : ℚ) = (aggregate txC2w "whaleA").usdc +
      (aggregate txC2w "whaleA").usdt := by
    have h1 : (aggregate txC2w "whaleA").usdc = 0 := by decide
    have h2 : (aggregate txC2w "whaleA").usdt = 0 := by decide
    rw [h1, h2]
    norm_num
  have h := (claim_C2_amended_input_resolution 150 txC2w "whaleA"
    (aggregate txC2w "whaleA") 0 rfl hst).1 tradeC2w (by decide) (by decide)
  exact h.2.1 (by decide) (by decide) (by decide)

/-- One step of the delivery loop preserves the dedup invariant for a
subscriber whose sends succeed: no send has happened unless the marker is
set, and at most one send has happened. -/
theorem processEntry_count_inv (sendOk alertsEnabled : ℤ → Bool)
    (sig : String) (c : ℤ) (hok : sendOk c = true) (st : BotState)
    (e : WhaleEntry)
    (h1 : ¬ (c, sig) ∈ st.processed → st.sent.count (c, sig) = 0)
    (h2 : st.sent.count (c, sig) ≤ 1) :
    (¬ (c, sig) ∈ (processEntry sendOk alertsEnabled sig st e).processed →
      (processEntry sendOk alertsEnabled sig st e).sent.count (c, sig) = 0) ∧
    (processEntry sendOk alertsEnabled sig st e).sent.count (c, sig) ≤ 1 := by
  unfold processEntry
  split_ifs with ha hb hc
  · exact ⟨h1, h2⟩
  · dsimp only
    by_cases hec : e.chatId = c
    · subst hec
      have hz : st.sent.count (e.chatId, sig) = 0 := h1 ha
      constructor
      · intro hmem
        exact absurd (List.mem_append_right st.processed
          (List.mem_cons_self _ [])) hmem
      · rw [List.count_append, hz]
        simp
    · have hne : ((e.chatId, sig) : ℤ × String) ≠ (c, sig) := by
        intro hcontra
        exact hec (congrArg Prod.fst hcontra)
      have hcnt : List.count ((c, sig) : ℤ × String) [(e.chatId, sig)]
          = 0 := by
        simp [List.count_cons, hne.symm]
      constructor
      · intro hmem
        have hnm : ¬ (c, sig) ∈ st.processed := by
          intro hin
          exact hmem (List.mem_append_left _ hin)
        rw [List.count_append, h1 hnm, hcnt]
      · rw [List.count_append, hcnt]
        simpa using h2
  · dsimp only
    have hec : ¬ e.chatId = c := by
      intro hcontra
      rw [hcontra] at hc
      exact hc hok
    have hne : ((e.chatId, sig) : ℤ × String) ≠ (c, sig) := by
      intro hcontra
      exact hec (congrArg Prod.fst hcontra)
    have hcnt : List.count ((c, sig) : ℤ × String) [(e.chatId, sig)]
        = 0 := by
      simp [List.count_cons, hne.symm]
    constructor
    · intro hmem
      rw [List.count_append, h1 hmem, hcnt]
    · rw [List.count_append, hcnt]
      simpa using h2
  · exact ⟨h1, h2⟩

/-- The delivery loop preserves the dedup invariant for a subscriber whose
sends succeed. -/
theorem processTransaction_count_inv (sendOk alertsEnabled : ℤ → Bool)
    (sig : String) (c : ℤ) (hok : sendOk c = true)
    (entries : List WhaleEntry) (st : BotState)
    (h1 : ¬ (c, sig) ∈ st.processed → st.sent.count (c, sig) = 0)
    (h2 : st.sent.count (c, sig) ≤ 1) :
    (¬ (c, sig) ∈
        (processTransaction sendOk alertsEnabled sig entries st).processed →
      (processTransaction sendOk alertsEnabled sig entries st).sent.count
        (c, sig) = 0) ∧
    (processTransaction sendOk alertsEnabled sig entries st).sent.count
      (c, sig) ≤ 1 := by
  induction entries generalizing st with
  | nil => exact ⟨h1, h2⟩
  | cons e es ih =>
      have hstep := processEntry_count_inv sendOk alertsEnabled sig c hok
        st e h1 h2
      exact ih _ hstep.1 hstep.2

/-- C6: delivery is idempotent per (subscriber, signature) — running the
delivery loop twice in sequence for the same signature performs at most
one send to a subscriber whose sends succeed, because a successful send
writes the dedup marker and the second pass short-circuits on it. -/
theorem claim_C6_delivery_idempotent (sendOk alertsEnabled : ℤ → Bool)
    (sig : String) (entries : List WhaleEntry) (p₀ : List (ℤ × String))
    (c : ℤ) (hok : sendOk c = true) :
    (processTransaction sendOk alertsEnabled sig entries
      (processTransaction sendOk alertsEnabled sig entries
        ⟨p₀, []⟩)).sent.count (c, sig) ≤ 1 := by
  have h0 := processTransaction_count_inv sendOk alertsEnabled sig c hok
    entries ⟨p₀, []⟩ (fun _ => rfl) (by simp)
  exact (processTransaction_count_inv sendOk alertsEnabled sig c hok
    entries _ h0.1 h0.2).2

/-- Witness for C6: one subscriber, successful sends; two runs produce
exactly one send (so in particular at most one). -/
theorem claim_C6_delivery_idempotent_witness :
    (processTransaction (fun _ => true) (fun _ => true) "sg"
      [⟨1, "w", true⟩]
      (processTransaction (fun _ => true) (fun _ => true) "sg"
        [⟨1, "w", true⟩] ⟨[], []⟩)).sent.count ((1 : ℤ), "sg") ≤ 1 ∧
    (processTransaction (fun _ => true) (fun _ => true) "sg"
      [⟨1, "w", true⟩]
      (processTransaction (fun _ => true) (fun _ => true) "sg"
        [⟨1, "w", true⟩] ⟨[], []⟩)).sent.count ((1 : ℤ), "sg") = 1 :=
  ⟨claim_C6_delivery_idempotent (fun _ => true) (fun _ => true) "sg"
    [⟨1, "w", true⟩] [] 1 rfl, by decide⟩

/-- One loop step only extends the send log. -/
theorem processEntry_sent_mono (sendOk alertsEnabled : ℤ → Bool)
    (sig : String) (st : BotState) (e : WhaleEntry) (pr : ℤ × String)
    (h : pr ∈ st.sent) :
    pr ∈ (processEntry sendOk alertsEnabled sig st e).sent := by
  unfold processEntry
  split_ifs
  · exact h
  · exact List.mem_append_left _ h
  · exact List.mem_append_left _ h
  · exact h

/-- The delivery loop only extends the send log. -/
theorem processTransaction_sent_mono (sendOk alertsEnabled : ℤ → Bool)
    (sig : String) (entries : List WhaleEntry) (st : BotState)
    (pr : ℤ × String) (h : pr ∈ st.sent) :
    pr ∈ (processTransaction sendOk alertsEnabled sig entries st).sent := by
  induction entries generalizing st with
  | nil => exact h
  | cons e es ih =>
      exact ih _ (processEntry_sent_mono sendOk alertsEnabled sig st e pr h)

/-- A dedup marker present after one loop step was either present before,
or belongs to a chat whose send succeeded and was logged in this step. -/
theorem processEntry_marker_src (sendOk alertsEnabled : ℤ → Bool)
    (sig : String) (st : BotState) (e : WhaleEntry) (pr : ℤ × String)
    (h : pr ∈ (processEntry sendOk alertsEnabled sig st e).processed) :
    pr ∈ st.processed ∨
    (pr ∈ (processEntry sendOk alertsEnabled sig st e).sent ∧
      sendOk pr.1 = true) := by
  unfold processEntry at h ⊢
  split_ifs at h ⊢ with ha hb hc
  · exact Or.inl h
  · dsimp only at h ⊢
    rcases List.mem_append.mp h with h | h
    · exact Or.inl h
    · rcases List.mem_cons.mp h with h | h
      · refine Or.inr ⟨?_, ?_⟩
        · rw [h]
          exact List.mem_append_right _ (List.mem_cons_self _ [])
        · rw [h]
          exact hc
      · cases h
  · exact Or.inl h
  · exact Or.inl h

/-- A dedup marker present after the delivery loop was either present
before the loop, or belongs to a chat whose send succeeded and is in the
final send log. -/
theorem processTransaction_marker_src (sendOk alertsEnabled : ℤ → Bool)
    (sig : String) (entries : List WhaleEntry) (st : BotState)
    (pr : ℤ × String)
    (h : pr ∈ (processTransaction sendOk alertsEnabled sig entries
      st).processed) :
    pr ∈ st.processed ∨
    (pr ∈ (processTransaction sendOk alertsEnabled sig entries st).sent ∧
      sendOk pr.1 = true) := by
  induction entries generalizing st with
  | nil => exact Or.inl h
  | cons e es ih =>
      rcases ih _ h with hmem | hres
      · rcases processEntry_marker_src sendOk alertsEnabled sig st e pr
          hmem with hmem2 | ⟨hsent, hokp⟩
        · exact Or.inl hmem2
        · exact Or.inr ⟨processTransaction_sent_mono sendOk alertsEnabled
            sig es _ pr hsent, hokp⟩
      · exact Or.inr hres

/-- C7: markers are written only after successful sends, and per-subscriber
failures are isolated: with a fresh state and two subscribers A and B of
the same trade, A failing and B succeeding, B's marker is written, A's
marker is not, and both sends were attempted (A's failure does not block
B). -/
theorem claim_C7_fanout_isolation (sendOk alertsEnabled : ℤ → Bool)
    (sig : String) (A B : WhaleEntry) (p₀ : List (ℤ × String))
    (hAB : A.chatId ≠ B.chatId)
    (hAfail : sendOk A.chatId = false) (hBok : sendOk B.chatId = true)
    (hAact : A.active = true) (hBact : B.active = true)
    (hAal : alertsEnabled A.chatId = true)
    (hBal : alertsEnabled B.chatId = true)
    (hA0 : ¬ (A.chatId, sig) ∈ p₀) (hB0 : ¬ (B.chatId, sig) ∈ p₀) :
    (∀ (entries : List WhaleEntry) (st : BotState) (pr : ℤ × String),
      pr ∈ (processTransaction sendOk alertsEnabled sig entries
        st).processed →
      pr ∈ st.processed ∨
      (pr ∈ (processTransaction sendOk alertsEnabled sig entries st).sent ∧
        sendOk pr.1 = true)) ∧
    ((B.chatId, sig) ∈ (processTransaction sendOk alertsEnabled sig [A, B]
      ⟨p₀, []⟩).processed ∧
     ¬ (A.chatId, sig) ∈ (processTransaction sendOk alertsEnabled sig [A, B]
      ⟨p₀, []⟩).processed ∧
     (processTransaction sendOk alertsEnabled sig [A, B] ⟨p₀, []⟩).sent =
       [(A.chatId, sig), (B.chatId, sig)]) := by
  constructor
  · intro entries st pr h
    exact processTransaction_marker_src sendOk alertsEnabled sig entries
      st pr h
  · have e1 : processEntry sendOk alertsEnabled sig ⟨p₀, []⟩ A =
        ⟨p₀, [(A.chatId, sig)]⟩ := by
      unfold processEntry
      rw [if_neg hA0, if_neg (by rw [hAal, hAact]; simp), if_neg (by
        rw [hAfail]; simp)]
      rfl
    have e2 : processEntry sendOk alertsEnabled sig ⟨p₀, [(A.chatId, sig)]⟩
        B = ⟨p₀ ++ [(B.chatId, sig)], [(A.chatId, sig), (B.chatId, sig)]⟩ := by
      unfold processEntry
      rw [if_neg hB0, if_neg (by rw [hBal, hBact]; simp), if_pos hBok]
      rfl
    have hrun : processTransaction sendOk alertsEnabled sig [A, B]
        ⟨p₀, []⟩ = ⟨p₀ ++ [(B.chatId, sig)],
          [(A.chatId, sig), (B.chatId, sig)]⟩ := by
      unfold processTransaction
      rw [List.foldl_cons, e1, List.foldl_cons, e2, List.foldl_nil]
    rw [hrun]
    refine ⟨List.mem_append_right _ (List.mem_cons_self _ []), ?_, rfl⟩
    intro hmem
    rcases List.mem_append.mp hmem with hmem | hmem
    · exact hA0 hmem
    · rcases List.mem_cons.mp hmem with hmem | hmem
      · exact hAB (congrArg Prod.fst hmem)
      · cases hmem

def entryA7 : WhaleEntry := ⟨1, "whaleA", true⟩

def entryB7 : WhaleEntry := ⟨2, "whaleA", true⟩

/-- Witness for C7: chat 1 fails, chat 2 succeeds; only chat 2's marker is
written and both sends were attempted. -/
theorem claim_C7_fanout_isolation_witness :
    ((2 : ℤ), "sg") ∈ (processTransaction (fun c => c == 2)
      (fun _ => true) "sg" [entryA7, entryB7] ⟨[], []⟩).processed ∧
    ¬ ((1 : ℤ), "sg") ∈ (processTransaction (fun c => c == 2)
      (fun _ => true) "sg" [entryA7, entryB7] ⟨[], []⟩).processed ∧
    (processTransaction (fun c => c == 2) (fun _ => true) "sg"
      [entryA7, entryB7] ⟨[], []⟩).sent = [((1 : ℤ), "sg"), ((2 : ℤ), "sg")] :=
  (claim_C7_fanout_isolation (fun c => c == 2) (fun _ => true) "sg"
    entryA7 entryB7 [] (by decide) (by decide) (by decide) (by decide)
    (by decide) (by decide) (by decide) (by decide) (by decide)).2

/-- Counterexample to C8 as stated: in a state whose cached quote is `0.0`
(reachable: a successful fetch caches whatever value the source returned)
and younger than the TTL, the claim says the oracle returns the cached
value without refreshing, and that on refresh failure it returns the last
cached value because one exists; the code treats the cached `0.0` as
falsy (`if cache and ...`, `cache or 200.0`) and returns the hard-coded
fallback 200 instead. -/
theorem claim_C8_counterexample :
    (10 : ℚ) - 0 < 30 ∧
    (PriceCache.mk (some 0) 0).cache = some 0 ∧
    getSolPrice 10 none ⟨some 0, 0⟩ = (200, ⟨some 0, 0⟩) ∧
    (200 : ℚ) ≠ 0 := by
  refine ⟨by norm_num, rfl, by decide, by norm_num⟩

/-- C8 (amended): the oracle is a total function (never raises); when the
cached quote is non-zero and younger than the 30s TTL it is returned with
no refresh and no state change; otherwise a refresh is attempted: on
success the fetched price is returned and cached, on failure the last
cached value is returned when it is non-zero, and the hard-coded fallback
200 when the cache is empty or holds zero. -/
theorem claim_C8_amended_price_oracle (now : ℚ) (st : PriceCache) :
    (∀ p ts, st = ⟨some p, ts⟩ → p ≠ 0 → now - ts < 30 →
      ∀ fetchResult, getSolPrice now fetchResult st = (p, st))
    ∧ (∀ q, ¬ (cacheTruthy st.cache = true ∧ now - st.timestamp < 30) →
        getSolPrice now (some q) st = (q, ⟨some q, now⟩))
    ∧ (∀ p, ¬ (cacheTruthy st.cache = true ∧ now - st.timestamp < 30) →
        st.cache = some p → p ≠ 0 → getSolPrice now none st = (p, st))
    ∧ (¬ (cacheTruthy st.cache = true ∧ now - st.timestamp < 30) →
        (st.cache = none ∨ st.cache = some 0) →
        getSolPrice now none st = (200, st)) := by
  refine ⟨?_, ?_, ?_, ?_⟩
  · intro p ts hst hp hfresh fetchResult
    subst hst
    unfold getSolPrice
    rw [if_pos ?_]
    · rfl
    · constructor
      · simp [cacheTruthy, hp]
      · rw [rsub_eq]
        exact hfresh
  · intro q hstale
    unfold getSolPrice
    have hcond : ¬ (cacheTruthy st.cache = true ∧
        rsub now st.timestamp < 30) := by
      rw [rsub_eq]
      exact hstale
    rw [if_neg hcond]
  · intro p hstale hc hp
    unfold getSolPrice
    have hcond : ¬ (cacheTruthy st.cache = true ∧
        rsub now st.timestamp < 30) := by
      rw [rsub_eq]
      exact hstale
    rw [if_neg hcond, hc]
    dsimp only
    rw [if_pos hp]
  · intro hstale hc
    unfold getSolPrice
    have hcond : ¬ (cacheTruthy st.cache = true ∧
        rsub now st.timestamp < 30) := by
      rw [rsub_eq]
      exact hstale
    rcases hc with hc | hc
    · rw [if_neg hcond, hc]
    · rw [if_neg hcond, hc]
      dsimp only
      rw [if_neg (by norm_num)]

/-- Witness for the amended C8: a stale non-zero cache survives a failed
refresh; a fresh non-zero cache is returned unchanged. -/
theorem claim_C8_amended_price_oracle_witness :
    getSolPrice 100 none ⟨some 150, 0⟩ = (150, ⟨some 150, 0⟩) ∧
    getSolPrice 10 (some 170) ⟨some 150, 0⟩ = (150, ⟨some 150, 0⟩) :=
  ⟨(claim_C8_amended_price_oracle 100 ⟨some 150, 0⟩).2.2.1 150
      (by intro h; norm_num at h) rfl (by norm_num),
    (claim_C8_amended_price_oracle 10 ⟨some 150, 0⟩).1 150 0 rfl
      (by norm_num) (by norm_num) (some 170)⟩

end WhaleTracker
